import Mathlib

/-!
Shallow embedding of the billing lifecycle and inventory consistency engine of
`apps/api/app/routes/billing.py` (models in `apps/api/app/models/billing.py`,
input shapes in `apps/api/app/schemas/billing.py`).

Modelling conventions:
* IDs (UUIDs) are `Nat`; timestamps are `Nat` instants (the calendar year that
  `_alloc_doc_no` reads off `now` is passed separately).
* `Decimal` quantities and tax rates are exact rationals `ℚ` (the code uses
  `decimal.Decimal` throughout, never floats, for these values).
* A SQLAlchemy session plus its tables is a `DBState`; an endpoint is a
  function `DBState → Except ApiError DBState`.  A raised `HTTPException`
  aborts the enclosing transaction before commit, so `.error e` models the
  rolled-back transaction: the database keeps the pre-call state.
* Python dicts keyed by item id (`consume_map`, `required`, `consumed`,
  `restore_map`) are association lists `AMap` built in insertion order with
  `mapAdd` (dict update keeps the key's position, `dict.get(k, 0)` is
  `alookup`).  The one place the code iterates a `set(...)` union of keys
  (`_reconcile_inventory_for_issued_billing_update`) has unspecified iteration
  order in Python; the model fixes the order required-keys-then-consumed-keys,
  which no proved statement observes.
-/

namespace VlpBilling

/-- `BillingDocumentORM.kind`: "estimate" / "invoice". -/
inductive Kind where
  | estimate
  | invoice
deriving DecidableEq, Repr

/-- `BillingDocumentORM.status`: "draft" / "issued" / "void". -/
inductive Status where
  | draft
  | issued
  | void
deriving DecidableEq, Repr

/-- `StockMoveORM.move_type`: "in" / "out" / "adjust". -/
inductive MoveType where
  | inMove
  | outMove
  | adjust
deriving DecidableEq, Repr

/-- `StockMoveORM.ref_type` values used by the billing engine. -/
inductive RefType where
  | billingIssue
  | billingUpdate
  | billingVoid
  | manual
deriving DecidableEq, Repr

/-- `tax_mode`: "exclusive" / "inclusive". -/
inductive TaxMode where
  | exclusive
  | inclusive
deriving DecidableEq, Repr

/-- `tax_rounding`: "floor" / "ceil" / "half_up" (the three policies of the
spec; `_round_tax` sends any other string to half_up as well). -/
inductive Rounding where
  | floor
  | ceil
  | halfUp
deriving DecidableEq, Repr

/-- `HTTPException`s raised by the billing routes (status 400/404/409). -/
inductive ApiError where
  | notFound
  | storeRequired
  | invalidWork (workId : Nat)
  | invalidItem (itemId : Nat)
  | insufficientStock (name : String)
  | onlyInvoiceIssue
  | issuedCannotDelete
deriving DecidableEq, Repr

/-- `InventoryItemORM` (fields the billing engine touches). -/
structure InventoryItem where
  id : Nat
  storeId : Nat
  name : String
  costPrice : Int
  qtyOnHand : ℚ
deriving DecidableEq, Repr

/-- `WorkMaterialORM`: BOM row (work id, inventory item id) → qty per work. -/
structure WorkMaterial where
  storeId : Nat
  workId : Nat
  itemId : Nat
  qtyPerWork : ℚ
deriving DecidableEq, Repr

/-- `WorkORM` (fields `_resolve_line_from_work` snapshots). -/
structure Work where
  id : Nat
  storeId : Nat
  name : String
  unit : Option String
  unitPrice : Int
  costPrice : Int
deriving DecidableEq, Repr

/-- `StockMoveORM`: one ledger row. -/
structure StockMove where
  storeId : Nat
  itemId : Nat
  moveType : MoveType
  qty : ℚ
  unitCost : Int
  refType : RefType
  refId : Nat
  createdAt : Nat
deriving DecidableEq, Repr

/-- `BillingLineORM` (fields the engine reads and writes). -/
structure BillingLine where
  billingId : Nat
  workId : Option Nat
  name : String
  qty : ℚ
  unit : Option String
  unitPrice : Int
  costPrice : Int
  amount : Int
  sortOrder : Nat
deriving DecidableEq, Repr

/-- `BillingDocumentORM` (fields the engine reads and writes). -/
structure BillingDocument where
  id : Nat
  storeId : Option Nat
  kind : Kind
  status : Status
  docNo : Option String
  customerName : Option String
  subtotal : Int
  taxTotal : Int
  total : Int
  taxRate : ℚ
  taxMode : TaxMode
  taxRounding : Rounding
  issuedAt : Option Nat
  createdAt : Nat
  updatedAt : Nat
deriving DecidableEq, Repr

/-- The relational store backing one transaction. -/
structure DBState where
  docs : List BillingDocument
  lines : List BillingLine
  items : List InventoryItem
  materials : List WorkMaterial
  works : List Work
  moves : List StockMove
deriving DecidableEq, Repr

deriving instance DecidableEq for Except

/-! ## Association maps: Python dicts keyed by item id, in insertion order. -/

/-- A Python `dict[UUID, Decimal]` as an insertion-ordered association list. -/
abbrev AMap := List (Nat × ℚ)

/-- `m[k] = m.get(k, 0) + q`: dict update keeps an existing key's position and
appends a fresh key at the end, exactly like CPython dicts. -/
def mapAdd : AMap → Nat → ℚ → AMap
  | [], k, q => [(k, q)]
  | p :: rest, k, q =>
    if p.1 = k then (k, p.2 + q) :: rest else p :: mapAdd rest k q

/-- `m.get(k, Decimal("0"))`. -/
def alookup : AMap → Nat → ℚ
  | [], _ => 0
  | p :: rest, k => if p.1 = k then p.2 else alookup rest k

/-- Accumulate a list of (key, delta) contributions into a map, first to last. -/
def accAll (l : List (Nat × ℚ)) (m : AMap) : AMap :=
  l.foldl (fun acc p => mapAdd acc p.1 p.2) m

/-- Total of the contributions a list of pairs makes at key `k`. -/
def sumAt (k : Nat) : List (Nat × ℚ) → ℚ
  | [] => 0
  | p :: rest => (if p.1 = k then p.2 else 0) + sumAt k rest

theorem alookup_mapAdd (m : AMap) (k : Nat) (q : ℚ) (j : Nat) :
    alookup (mapAdd m k q) j = alookup m j + (if k = j then q else 0) := by
  induction m with
  | nil =>
    by_cases h : k = j <;> simp [mapAdd, alookup, h]
  | cons p rest ih =>
    obtain ⟨a, b⟩ := p
    by_cases ha : a = k
    · subst ha
      by_cases hj : a = j
      · subst hj; simp [mapAdd, alookup]
      · simp [mapAdd, alookup, hj]
    · by_cases haj : a = j
      · subst haj
        have hk : ¬ k = a := fun hc => ha hc.symm
        simp [mapAdd, alookup, ha, hk]
      · simp [mapAdd, alookup, ha, haj, ih]

theorem alookup_accAll (l : List (Nat × ℚ)) (m : AMap) (k : Nat) :
    alookup (accAll l m) k = alookup m k + sumAt k l := by
  induction l generalizing m with
  | nil => simp [accAll, sumAt]
  | cons p rest ih =>
    have h1 : accAll (p :: rest) m = accAll rest (mapAdd m p.1 p.2) := rfl
    rw [h1, ih, alookup_mapAdd]
    by_cases h : p.1 = k
    · simp only [sumAt, h, if_pos rfl]
      ring
    · simp only [sumAt, h, if_neg h]
      simp

theorem sumAt_append (k : Nat) (l₁ l₂ : List (Nat × ℚ)) :
    sumAt k (l₁ ++ l₂) = sumAt k l₁ + sumAt k l₂ := by
  induction l₁ with
  | nil => simp [sumAt]
  | cons p rest ih =>
    show (if p.1 = k then p.2 else 0) + sumAt k (rest ++ l₂) = _
    rw [ih]
    simp only [sumAt]
    ring

/-- Keys of a map, in order. -/
def keysOf : AMap → List Nat
  | [] => []
  | p :: rest => p.1 :: keysOf rest

theorem alookup_eq_zero_of_not_mem_keys (m : AMap) (k : Nat) (h : k ∉ keysOf m) :
    alookup m k = 0 := by
  induction m with
  | nil => simp [alookup]
  | cons p rest ih =>
    simp only [keysOf, List.mem_cons] at h
    push_neg at h
    have hp : ¬ p.1 = k := fun hc => h.1 hc.symm
    simp [alookup, hp, ih h.2]

theorem sumAt_eq_zero_of_not_mem_keys (m : AMap) (k : Nat) (h : k ∉ keysOf m) :
    sumAt k m = 0 := by
  induction m with
  | nil => simp [sumAt]
  | cons p rest ih =>
    simp only [keysOf, List.mem_cons] at h
    push_neg at h
    have hp : ¬ p.1 = k := fun hc => h.1 hc.symm
    simp [sumAt, hp, ih h.2]

theorem keysOf_mapAdd (m : AMap) (k : Nat) (q : ℚ) :
    keysOf (mapAdd m k q) =
      if k ∈ keysOf m then keysOf m else keysOf m ++ [k] := by
  induction m with
  | nil => simp [mapAdd, keysOf]
  | cons p rest ih =>
    obtain ⟨a, b⟩ := p
    by_cases ha : a = k
    · subst ha
      simp [mapAdd, keysOf]
    · have hka : ¬ k = a := fun hc => ha hc.symm
      by_cases hmem : k ∈ keysOf rest
      · simp [mapAdd, keysOf, ha, hka, hmem, ih]
      · simp [mapAdd, keysOf, ha, hka, hmem, ih]

theorem keysOf_mapAdd_nodup (m : AMap) (k : Nat) (q : ℚ)
    (h : (keysOf m).Nodup) : (keysOf (mapAdd m k q)).Nodup := by
  rw [keysOf_mapAdd]
  by_cases hmem : k ∈ keysOf m
  · simpa [hmem]
  · simp [hmem, List.nodup_append, h]

theorem keysOf_accAll_nodup (l : List (Nat × ℚ)) (m : AMap)
    (h : (keysOf m).Nodup) : (keysOf (accAll l m)).Nodup := by
  induction l generalizing m with
  | nil => simpa [accAll]
  | cons p rest ih => exact ih (mapAdd m p.1 p.2) (keysOf_mapAdd_nodup m p.1 p.2 h)

/-- On a map with no repeated keys, the raw pair-sum at `k` is the lookup. -/
theorem sumAt_eq_alookup_of_nodup (m : AMap) (h : (keysOf m).Nodup) (k : Nat) :
    sumAt k m = alookup m k := by
  induction m with
  | nil => simp [sumAt, alookup]
  | cons p rest ih =>
    obtain ⟨a, b⟩ := p
    simp only [keysOf, List.nodup_cons] at h
    by_cases ha : a = k
    · subst ha
      have hz : sumAt a rest = 0 := sumAt_eq_zero_of_not_mem_keys rest a h.1
      simp [sumAt, alookup, hz]
    · simp [sumAt, alookup, ha, ih h.2]

/-! ## Tax calculator: `_round_tax` and `_recalc`. -/

/-- `int(Decimal)`: Python truncates toward zero. -/
def ratTrunc (q : ℚ) : Int := if q < 0 then -(Int.floor (-q)) else Int.floor q

/-- `Decimal.to_integral_value(rounding=ROUND_HALF_UP)`: ties away from zero. -/
def roundHalfUp (q : ℚ) : Int :=
  if q < 0 then -(Int.floor (-q + 1 / 2)) else Int.floor (q + 1 / 2)

/-- `_round_tax(value, rounding)`. -/
def roundTax (v : ℚ) : Rounding → Int
  | .floor => Int.floor v
  | .ceil => Int.ceil v
  | .halfUp => roundHalfUp v

/-- `BillingLineIn` (pydantic input schema; `qty` defaults to 0, prices are
optional and default to 0 where the routes read them). -/
structure BillingLineIn where
  workId : Option Nat
  name : String
  qty : ℚ
  unit : Option String
  unitPrice : Option Int
  costPrice : Option Int
deriving DecidableEq, Repr

/-- A line's `int(qty * unit_price)` as `_recalc` computes it. -/
def lineAmount (ln : BillingLineIn) : Int :=
  ratTrunc (ln.qty * ((ln.unitPrice.getD 0 : Int) : ℚ))

/-- `_recalc(lines, tax_rate, tax_mode, tax_rounding) -> (subtotal, tax_total,
total)`. -/
def recalc (lines : List BillingLineIn) (taxRate : ℚ) (taxMode : TaxMode)
    (taxRounding : Rounding) : Int × Int × Int :=
  let subtotal := lines.foldl (fun acc ln => acc + lineAmount ln) 0
  match taxMode with
  | .inclusive =>
    let tax := (subtotal : ℚ) * taxRate / (1 + taxRate)
    let taxTotal := roundTax tax taxRounding
    (subtotal, taxTotal, subtotal)
  | .exclusive =>
    let tax := (subtotal : ℚ) * taxRate
    let taxTotal := roundTax tax taxRounding
    (subtotal, taxTotal, subtotal + taxTotal)

theorem foldl_add_eq (f : BillingLineIn → Int) (l : List BillingLineIn) :
    ∀ a : Int, l.foldl (fun acc ln => acc + f ln) a = a + (l.map f).sum := by
  induction l with
  | nil => simp
  | cons x rest ih =>
    intro a
    simp [List.foldl_cons, ih]
    ring

/-! ## Ledger queries and BOM aggregation. -/

/-- `_has_stock_consumed_for_billing`: a `billing_issue` row tagged with the
document exists. -/
def hasStockConsumed (s : DBState) (billingId : Nat) : Bool :=
  s.moves.any fun m => m.refType = .billingIssue ∧ m.refId = billingId

/-- `_has_stock_restored_for_billing`: a `billing_void` row tagged with the
document exists. -/
def hasStockRestored (s : DBState) (billingId : Nat) : Bool :=
  s.moves.any fun m => m.refType = .billingVoid ∧ m.refId = billingId

/-- The document's lines (`billing_lines` filtered by `billing_id`; the
`ORDER BY sort_order` only fixes dict insertion order, which nothing proved
here observes, so model states keep lines in that order). -/
def linesOf (lines : List BillingLine) (billingId : Nat) : List BillingLine :=
  lines.filter fun ln => ln.billingId = billingId

/-- `work_materials` rows for one store and work template. -/
def materialsFor (materials : List WorkMaterial) (storeId workId : Nat) :
    List WorkMaterial :=
  materials.filter fun m => m.storeId = storeId ∧ m.workId = workId

/-- The per-(item, qty) contributions of the BOM aggregation loop shared by
`_consume_inventory_for_billing_issue` and `_build_required_consumption_map`:
lines without `work_id` or with `qty <= 0` are skipped, BOM rows with
`qty_per_work <= 0` are skipped, and each remaining row contributes
`qty_per_work * qty` to its item. -/
def bomContribs (lines : List BillingLine) (materials : List WorkMaterial)
    (storeId billingId : Nat) : List (Nat × ℚ) :=
  (linesOf lines billingId).flatMap fun ln =>
    match ln.workId with
    | none => []
    | some workId =>
      if ln.qty ≤ 0 then []
      else
        (materialsFor materials storeId workId).filterMap fun mat =>
          if mat.qtyPerWork ≤ 0 then none
          else some (mat.itemId, mat.qtyPerWork * ln.qty)

/-- The `consume_map` of `_consume_inventory_for_billing_issue`, equally the
map `_build_required_consumption_map` returns: item id → required quantity. -/
def bomMap (lines : List BillingLine) (materials : List WorkMaterial)
    (storeId billingId : Nat) : AMap :=
  accAll (bomContribs lines materials storeId billingId) []

/-- The signed (out positive, in negative) contributions of
`_build_consumed_so_far_map`: rows of this store and document tagged
`billing_issue` or `billing_update`, rows with `qty <= 0` skipped, `adjust`
rows signed zero and skipped. -/
def consumedContribs (moves : List StockMove) (storeId billingId : Nat) :
    List (Nat × ℚ) :=
  moves.flatMap fun m =>
    if m.storeId = storeId ∧ m.refId = billingId ∧
        (m.refType = .billingIssue ∨ m.refType = .billingUpdate) then
      if m.qty ≤ 0 then []
      else
        match m.moveType with
        | .outMove => [(m.itemId, m.qty)]
        | .inMove => [(m.itemId, -m.qty)]
        | .adjust => []
    else []

/-- `_build_consumed_so_far_map`: item id → net quantity (out − in) this
document has moved so far under `billing_issue`/`billing_update`. -/
def consumedMap (moves : List StockMove) (storeId billingId : Nat) : AMap :=
  accAll (consumedContribs moves storeId billingId) []

/-- Replace one item's quantity-on-hand in place. -/
def updateItemQty (items : List InventoryItem) (itemId : Nat) (f : ℚ → ℚ) :
    List InventoryItem :=
  items.map fun it =>
    if it.id = itemId then { it with qtyOnHand := f it.qtyOnHand } else it

/-- `db.get(InventoryItemORM, item_id)`. -/
def findItem (items : List InventoryItem) (itemId : Nat) :
    Option InventoryItem :=
  items.find? fun it => it.id = itemId

/-! ## Consume on issue (`_consume_inventory_for_billing_issue`). -/

/-- The stock check loop: every item of the map must exist, belong to the
store, and have `qty_on_hand >= consume_qty`; the first violation raises. -/
def checkStock (s : DBState) (storeId : Nat) : List (Nat × ℚ) →
    Except ApiError Unit
  | [] => .ok ()
  | (i, q) :: rest =>
    match findItem s.items i with
    | none => .error (.invalidItem i)
    | some it =>
      if it.storeId ≠ storeId then .error (.invalidItem i)
      else if it.qtyOnHand < q then .error (.insufficientStock it.name)
      else checkStock s storeId rest

/-- The apply loop: decrement `qty_on_hand` and append one `out` ledger row
tagged `billing_issue` per item (the Python `assert item is not None` cannot
fire after `checkStock`, and the loop never removes items; the impossible
branch skips). -/
def applyConsume (storeId billingId now : Nat) : List (Nat × ℚ) → DBState →
    DBState
  | [], s => s
  | (i, q) :: rest, s =>
    match findItem s.items i with
    | none => applyConsume storeId billingId now rest s
    | some it =>
      applyConsume storeId billingId now rest
        { s with
          items := updateItemQty s.items i (fun x => x - q),
          moves := s.moves ++
            [⟨storeId, i, .outMove, q, it.costPrice, .billingIssue, billingId,
              now⟩] }

/-- `_consume_inventory_for_billing_issue`: idempotent via the ledger-presence
check, then check-all-then-apply-all. -/
def consumeInventory (s : DBState) (storeId billingId now : Nat) :
    Except ApiError DBState :=
  if hasStockConsumed s billingId then .ok s
  else
    let m := bomMap s.lines s.materials storeId billingId
    match checkStock s storeId m with
    | .error e => .error e
    | .ok () => .ok (applyConsume storeId billingId now m s)

/-! ## Reverse on void (`_restore_inventory_for_billing_void`). -/

/-- The contributions of the `restore_map` aggregation: every `billing_issue`
row of the document, by item, at its ledger quantity (note: `billing_update`
rows are not read here). -/
def restoreContribs (moves : List StockMove) (billingId : Nat) :
    List (Nat × ℚ) :=
  (moves.filter fun m => m.refType = .billingIssue ∧ m.refId = billingId).map
    fun m => (m.itemId, m.qty)

/-- The `restore_map`: item id → total `billing_issue` quantity. -/
def restoreMap (moves : List StockMove) (billingId : Nat) : AMap :=
  accAll (restoreContribs moves billingId) []

/-- The restore loop: entries with `restore_qty <= 0` are skipped; a missing
or foreign-store item raises; otherwise `qty_on_hand` is incremented and one
`in` row tagged `billing_void` appended. -/
def applyRestore (storeId billingId now : Nat) : List (Nat × ℚ) → DBState →
    Except ApiError DBState
  | [], s => .ok s
  | (i, q) :: rest, s =>
    if q ≤ 0 then applyRestore storeId billingId now rest s
    else
      match findItem s.items i with
      | none => .error (.invalidItem i)
      | some it =>
        if it.storeId ≠ storeId then .error (.invalidItem i)
        else
          applyRestore storeId billingId now rest
            { s with
              items := updateItemQty s.items i (fun x => x + q),
              moves := s.moves ++
                [⟨storeId, i, .inMove, q, it.costPrice, .billingVoid,
                  billingId, now⟩] }

/-- `_restore_inventory_for_billing_void`: no-op when already restored or when
no `billing_issue` consumption exists; otherwise restore per item the total of
the document's `billing_issue` rows. -/
def restoreInventory (s : DBState) (storeId billingId now : Nat) :
    Except ApiError DBState :=
  if hasStockRestored s billingId then .ok s
  else if ¬ hasStockConsumed s billingId then .ok s
  else applyRestore storeId billingId now (restoreMap s.moves billingId) s

/-! ## Reconcile on post-issue update
(`_reconcile_inventory_for_issued_billing_update`). -/

/-- `set(required.keys()) | set(consumed.keys())` (Python set iteration order
is unspecified; the model lists required keys first, then fresh consumed
keys, without duplicates). -/
def keysUnion (required consumed : AMap) : List Nat :=
  (keysOf required ++ keysOf consumed).dedup

/-- The shortage pre-check: only items with `delta > 0` are checked, the way
`_consume_inventory_for_billing_issue` checks, before anything is applied. -/
def checkReconcile (s : DBState) (storeId : Nat) (required consumed : Nat → ℚ) :
    List Nat → Except ApiError Unit
  | [] => .ok ()
  | i :: rest =>
    let delta := required i - consumed i
    if delta ≤ 0 then checkReconcile s storeId required consumed rest
    else
      match findItem s.items i with
      | none => .error (.invalidItem i)
      | some it =>
        if it.storeId ≠ storeId then .error (.invalidItem i)
        else if it.qtyOnHand < delta then .error (.insufficientStock it.name)
        else checkReconcile s storeId required consumed rest

/-- The delta application loop: `delta == 0` appends nothing; `delta > 0`
decrements stock and appends an `out` row tagged `billing_update` for the
delta; `delta < 0` increments stock and appends an `in` row for `-delta`. -/
def applyReconcile (storeId billingId now : Nat)
    (required consumed : Nat → ℚ) : List Nat → DBState →
    Except ApiError DBState
  | [], s => .ok s
  | i :: rest, s =>
    let delta := required i - consumed i
    if delta = 0 then applyReconcile storeId billingId now required consumed rest s
    else
      match findItem s.items i with
      | none => .error (.invalidItem i)
      | some it =>
        if it.storeId ≠ storeId then .error (.invalidItem i)
        else if 0 < delta then
          applyReconcile storeId billingId now required consumed rest
            { s with
              items := updateItemQty s.items i (fun x => x - delta),
              moves := s.moves ++
                [⟨storeId, i, .outMove, delta, it.costPrice, .billingUpdate,
                  billingId, now⟩] }
        else
          applyReconcile storeId billingId now required consumed rest
            { s with
              items := updateItemQty s.items i (fun x => x + (-delta)),
              moves := s.moves ++
                [⟨storeId, i, .inMove, -delta, it.costPrice, .billingUpdate,
                  billingId, now⟩] }

/-- `_reconcile_inventory_for_issued_billing_update`: move stock by
`required − consumed_so_far` per item, required recomputed from the current
lines and BOM, consumed replayed from the ledger. -/
def reconcileInventory (s : DBState) (storeId billingId now : Nat) :
    Except ApiError DBState :=
  let required := bomMap s.lines s.materials storeId billingId
  let consumed := consumedMap s.moves storeId billingId
  let ids := keysUnion required consumed
  match checkReconcile s storeId (alookup required) (alookup consumed) ids with
  | .error e => .error e
  | .ok () =>
    applyReconcile storeId billingId now (alookup required) (alookup consumed)
      ids s

/-! ## Document number allocation (`_alloc_doc_no`). -/

/-- "INV" for invoices, "EST" for estimates. -/
def docNoPfx (kind : Kind) : String :=
  match kind with
  | .invoice => "INV"
  | .estimate => "EST"

/-- The characters of `f"{prefix}-{year}-"`, the `LIKE` pattern's fixed
part. -/
def likePfx (kind : Kind) (year : Nat) : List Char :=
  (docNoPfx kind ++ "-" ++ toString year ++ "-").data

/-- `doc_no LIKE :like` for the pattern `{prefix}-{year}-%`. -/
def hasPfx : List Char → List Char → Bool
  | [], _ => true
  | _ :: _, [] => false
  | a :: as, b :: bs => a = b && hasPfx as bs

/-- Value of a run of decimal digit characters. -/
def digitsVal (cs : List Char) : Nat :=
  cs.foldl (fun a c => a * 10 + (c.toNat - 48)) 0

/-- `SUBSTRING(doc_no FROM '(\d{5})$')::int`: the last five characters when
they are all digits, else NULL. -/
def extract5 (no : String) : Option Nat :=
  let cs := no.data
  if 5 ≤ cs.length ∧ (cs.drop (cs.length - 5)).all Char.isDigit then
    some (digitsVal (cs.drop (cs.length - 5)))
  else none

/-- One document's contribution to the `MAX(...)` scan: its trailing 5-digit
suffix when it is of the same kind and its `doc_no` matches
`{prefix}-{year}-%` (the scan is not filtered by store). -/
def suffixOf (kind : Kind) (year : Nat) (d : BillingDocument) : Option Nat :=
  if d.kind = kind then
    match d.docNo with
    | some no => if hasPfx (likePfx kind year) no.data then extract5 no else none
    | none => none
  else none

/-- The numeric suffixes the `MAX(...)` scan ranges over. -/
def suffixVals (docs : List BillingDocument) (kind : Kind) (year : Nat) :
    List Nat :=
  docs.filterMap (suffixOf kind year)

/-- `COALESCE(MAX(...), 0)`. -/
def maxSuffix (docs : List BillingDocument) (kind : Kind) (year : Nat) : Nat :=
  (suffixVals docs kind year).foldl max 0

/-- `f"{n:05d}"`: five-digit zero padding, full decimal form past 99999. -/
def pad5 (n : Nat) : List Char :=
  if n ≤ 99999 then
    [Nat.digitChar (n / 10000 % 10), Nat.digitChar (n / 1000 % 10),
     Nat.digitChar (n / 100 % 10), Nat.digitChar (n / 10 % 10),
     Nat.digitChar (n % 10)]
  else Nat.toDigits 10 n

/-- `_alloc_doc_no(db, store_id, kind, now)`: advisory lock (serialization is
outside this sequential model), scan for the max trailing 5-digit suffix of
the same kind and prefix/year, allocate max+1. -/
def allocDocNo (docs : List BillingDocument) (kind : Kind) (year : Nat) :
    String :=
  ⟨likePfx kind year ++ pad5 (maxSuffix docs kind year + 1)⟩

/-! ## Endpoints. -/

/-- `db.get(BillingDocumentORM, billing_id)`. -/
def findDoc (docs : List BillingDocument) (billingId : Nat) :
    Option BillingDocument :=
  docs.find? fun d => d.id = billingId

/-- `POST /billing/{id}/issue` (`issue_billing`): 404 when absent, idempotent
no-op success when already issued, 400 for non-invoices, 400 without a store,
else consume inventory and flip the document to issued (an `.error` result
models the rolled-back transaction: the database keeps the pre-call state). -/
def issueBilling (s : DBState) (billingId now : Nat) :
    Except ApiError DBState :=
  match findDoc s.docs billingId with
  | none => .error .notFound
  | some doc =>
    if doc.status = .issued then .ok s
    else if doc.kind ≠ .invoice then .error .onlyInvoiceIssue
    else
      match doc.storeId with
      | none => .error .storeRequired
      | some storeId =>
        match consumeInventory s storeId billingId now with
        | .error e => .error e
        | .ok s1 =>
          .ok { s1 with
            docs := s1.docs.map fun d =>
              if d.id = billingId then
                { d with
                  status := .issued,
                  issuedAt := if d.issuedAt = none then some now else d.issuedAt,
                  updatedAt := now }
              else d }

/-- `DELETE /billing/{id}` (`delete_billing`): 404 when absent, 400 when the
document is issued, otherwise delete the document's lines and the document. -/
def deleteBilling (s : DBState) (billingId : Nat) : Except ApiError DBState :=
  match findDoc s.docs billingId with
  | none => .error .notFound
  | some doc =>
    if doc.status = .issued then .error .issuedCannotDelete
    else
      .ok { s with
        lines := s.lines.filter fun ln => ¬ ln.billingId = billingId,
        docs := s.docs.filter fun d => ¬ d.id = billingId }

/-! ## Create (`create_billing`). -/

/-- `BillingCreateIn` (pydantic: `kind` defaults to invoice, `status` to
draft, so both are always present). -/
structure BillingCreateIn where
  kind : Kind
  status : Status
  storeId : Option Nat
  customerName : Option String
  issuedAt : Option Nat
  lines : List BillingLineIn
deriving DecidableEq, Repr

/-- `_resolve_line_from_work`: without `work_id` the input values are used
(`int(x or 0)` for the prices); with one, the work master is read, must exist
in the caller's store, and its name/unit/prices are snapshotted. -/
def resolveLineFromWork (works : List Work) (storeId : Nat)
    (ln : BillingLineIn) :
    Except ApiError (String × Option String × Int × Int) :=
  match ln.workId with
  | none => .ok (ln.name, ln.unit, ln.unitPrice.getD 0, ln.costPrice.getD 0)
  | some workId =>
    match works.find? fun w => w.id = workId with
    | none => .error (.invalidWork workId)
    | some w =>
      if w.storeId ≠ storeId then .error (.invalidWork workId)
      else .ok (w.name, w.unit, w.unitPrice, w.costPrice)

/-- One resolved line snapshot. -/
structure ResolvedLine where
  input : BillingLineIn
  name : String
  unit : Option String
  unitPrice : Int
  costPrice : Int
deriving DecidableEq, Repr

/-- Resolve every input line in order; the first failure aborts. -/
def resolveLines (works : List Work) (storeId : Nat) :
    List BillingLineIn → Except ApiError (List ResolvedLine)
  | [] => .ok []
  | ln :: rest =>
    match resolveLineFromWork works storeId ln with
    | .error e => .error e
    | .ok (name, unit, unitPrice, costPrice) =>
      match resolveLines works storeId rest with
      | .error e => .error e
      | .ok rs => .ok (⟨ln, name, unit, unitPrice, costPrice⟩ :: rs)

/-- The `tmp_lines` rebuilt from resolved snapshots that `_recalc` is run
on. -/
def tmpLine (r : ResolvedLine) : BillingLineIn :=
  { workId := r.input.workId, name := r.name, qty := r.input.qty,
    unit := r.unit, unitPrice := some r.unitPrice,
    costPrice := some r.costPrice }

/-- The `BillingLineORM` rows `create_billing`/`update_billing` insert:
`amount = int(qty * unit_price)`, `sort_order` by position. -/
def storedLine (billingId : Nat) (i : Nat) (r : ResolvedLine) : BillingLine :=
  { billingId := billingId, workId := r.input.workId, name := r.name,
    qty := r.input.qty, unit := r.unit, unitPrice := r.unitPrice,
    costPrice := r.costPrice,
    amount := ratTrunc (r.input.qty * (r.unitPrice : ℚ)), sortOrder := i }

/-- `store_id = actor_store_id or body.store_id` (`None` is the only falsy
`Optional[UUID]`). -/
def resolveStoreId (actorStore bodyStore : Option Nat) : Option Nat :=
  match actorStore with
  | some a => some a
  | none => bodyStore

/-- `POST /billing` (`create_billing`): resolve the store (actor first, then
body), snapshot lines from the work master, run `_recalc` on the snapshots,
allocate a doc number, set `issued_at` to now when created directly as issued
without one, and persist the document and lines.  The inventory is NOT
touched here (the route's comment: lines are stored, stock does not move at
create).  `uuid4()` for the new document is modeled by `newId`; the tax
defaults `_get_tax_defaults` reads from system settings are parameters. -/
def createBilling (s : DBState) (actorStore : Option Nat)
    (body : BillingCreateIn) (taxRate : ℚ) (taxMode : TaxMode)
    (taxRounding : Rounding) (now year newId : Nat) :
    Except ApiError DBState :=
  match resolveStoreId actorStore body.storeId with
  | none => .error .storeRequired
  | some storeId =>
    match resolveLines s.works storeId body.lines with
    | .error e => .error e
    | .ok resolved =>
      let totals := recalc (resolved.map tmpLine) taxRate taxMode taxRounding
      let docNo := allocDocNo s.docs body.kind year
      let issuedAt :=
        if body.status = .issued ∧ body.issuedAt = none then some now
        else body.issuedAt
      let doc : BillingDocument :=
        { id := newId, storeId := some storeId, kind := body.kind,
          status := body.status, docNo := some docNo,
          customerName := body.customerName, subtotal := totals.1,
          taxTotal := totals.2.1, total := totals.2.2, taxRate := taxRate,
          taxMode := taxMode, taxRounding := taxRounding,
          issuedAt := issuedAt, createdAt := now, updatedAt := now }
      .ok { s with
        docs := s.docs ++ [doc],
        lines := s.lines ++ (resolved.enum.map fun p => storedLine newId p.1 p.2) }

/-! ## Bulk import (`import_billing`). -/

/-- One raw line dict of `BillingImportItemIn.lines` (`raw.get(...)` results;
a float that fails to parse is already `none` here). -/
structure ImportLineRaw where
  name : Option String
  qty : Option ℚ
  unitPrice : Option Int
  unit : Option String
deriving DecidableEq, Repr

/-- `BillingImportItemIn` (pydantic: `status` defaults draft, `kind`
invoice). -/
structure BillingImportItemIn where
  customerName : Option String
  status : Status
  kind : Kind
  lines : List ImportLineRaw
deriving DecidableEq, Repr

/-- The per-line parse of `import_billing`: the name falls back to "明細"
when missing or empty and the line is skipped when it strips to nothing;
`qty` falls back to 0, `unit_price` to 0, `unit` is stripped. -/
def parseImportLine (raw : ImportLineRaw) : Option BillingLineIn :=
  let base := match raw.name with
    | none => "明細"
    | some s => if s = "" then "明細" else s
  let name := base.trim
  if name = "" then none
  else
    some { workId := none, name := name, qty := raw.qty.getD 0,
           unit := raw.unit.map String.trim,
           unitPrice := some (raw.unitPrice.getD 0), costPrice := none }

/-- One imported document plus its lines: persisted with `store_id=None`,
`doc_no=None`, `issued_at=now` and no inventory side effects. -/
def importOne (s : DBState) (it : BillingImportItemIn) (taxRate : ℚ)
    (taxMode : TaxMode) (taxRounding : Rounding) (now docId : Nat) : DBState :=
  let lns := it.lines.filterMap parseImportLine
  let totals := recalc lns taxRate taxMode taxRounding
  let doc : BillingDocument :=
    { id := docId, storeId := none, kind := it.kind, status := it.status,
      docNo := none, customerName := it.customerName, subtotal := totals.1,
      taxTotal := totals.2.1, total := totals.2.2, taxRate := taxRate,
      taxMode := taxMode, taxRounding := taxRounding, issuedAt := some now,
      createdAt := now, updatedAt := now }
  let newLines := lns.enum.map fun p =>
    ({ billingId := docId, workId := none, name := p.2.name, qty := p.2.qty,
       unit := p.2.unit, unitPrice := p.2.unitPrice.getD 0,
       costPrice := p.2.costPrice.getD 0,
       amount := ratTrunc (p.2.qty * ((p.2.unitPrice.getD 0 : Int) : ℚ)),
       sortOrder := p.1 } : BillingLine)
  { s with docs := s.docs ++ [doc], lines := s.lines ++ newLines }

/-- `POST /billing/import` (`import_billing`): insert one document per item;
`uuid4()` per document is modeled by consecutive ids from `baseId`. -/
def importBilling (s : DBState) (items : List BillingImportItemIn)
    (taxRate : ℚ) (taxMode : TaxMode) (taxRounding : Rounding)
    (now baseId : Nat) : DBState :=
  match items with
  | [] => s
  | it :: rest =>
    importBilling (importOne s it taxRate taxMode taxRounding now baseId)
      rest taxRate taxMode taxRounding now (baseId + 1)

/-! ## C7 — the tax calculator. -/

/-- C7: the claim states subtotal = Σ floor(quantity × unit_price), but
`_recalc` computes `int(qty * unit_price)` per line and Python `int()`
truncates toward zero; on the line qty = −3/2, unit_price = 1 (the schema
does not restrict `qty: float` or `unit_price` to be nonnegative) the code
returns subtotal −1 while Σ floor gives −2. -/
theorem recalc_floor_counterexample :
    (recalc
      [{ workId := none, name := "discount", qty := -(3 / 2 : ℚ), unit := none,
         unitPrice := some 1, costPrice := none }] 0 .exclusive .floor).1 = -1 ∧
    Int.floor ((-(3 / 2 : ℚ)) * ((1 : Int) : ℚ)) = -2 := by
  constructor
  · norm_num [recalc, lineAmount, ratTrunc]
  · norm_num

/-- C7 (amended): for every list of lines, tax rate, mode and rounding
policy, `_recalc` returns subtotal = Σ trunc(quantity × unit_price) over the
lines (truncation toward zero, which agrees with floor whenever each line
amount is nonnegative); in exclusive mode tax_total = round(subtotal × rate)
per the policy and total = subtotal + tax_total; in inclusive mode
tax_total = round(subtotal × rate / (1 + rate)) per the policy and
total = subtotal.  The function is pure over exact rational arithmetic, hence
deterministic across calls. -/
theorem recalc_formulas (lines : List BillingLineIn) (taxRate : ℚ)
    (taxMode : TaxMode) (taxRounding : Rounding) :
    recalc lines taxRate taxMode taxRounding =
      (((lines.map lineAmount).sum : Int),
        roundTax
          (match taxMode with
            | .exclusive => ((lines.map lineAmount).sum : ℚ) * taxRate
            | .inclusive =>
              ((lines.map lineAmount).sum : ℚ) * taxRate / (1 + taxRate))
          taxRounding,
        match taxMode with
        | .exclusive =>
          (lines.map lineAmount).sum +
            roundTax (((lines.map lineAmount).sum : ℚ) * taxRate) taxRounding
        | .inclusive => (lines.map lineAmount).sum) := by
  cases taxMode <;> simp [recalc, foldl_add_eq lineAmount lines 0]

/-! ## C9 — delete. -/

/-- A void invoice document (issued and then voided). -/
def c9VoidDoc : BillingDocument :=
  { id := 1, storeId := some 1, kind := .invoice, status := .void,
    docNo := some "INV-2026-00001", customerName := none, subtotal := 100,
    taxTotal := 10, total := 110, taxRate := 1 / 10, taxMode := .exclusive,
    taxRounding := .floor, issuedAt := some 10, createdAt := 5,
    updatedAt := 12 }

def c9VoidState : DBState :=
  { docs := [c9VoidDoc],
    lines := [{ billingId := 1, workId := none, name := "svc", qty := 1,
                unit := none, unitPrice := 100, costPrice := 0, amount := 100,
                sortOrder := 0 }],
    items := [], materials := [], works := [], moves := [] }

/-- C9: the claim states deleting a document in any non-draft status (issued
or void) is rejected, but `delete_billing` only rejects `issued`: deleting
this void document succeeds and removes it and its lines. -/
theorem delete_void_succeeds_counterexample :
    ((deleteBilling c9VoidState 1).map fun s1 => (s1.docs, s1.lines)) =
      .ok ([], []) ∧
    (findDoc c9VoidState.docs 1).map BillingDocument.status = some .void := by
  constructor
  · decide
  · decide

/-- C9 (amended): `delete_billing` rejects with a 400-class failure exactly
the issued documents, leaving state untouched (the error models the
rolled-back transaction); a draft or void document is deleted together with
all its lines. -/
theorem delete_only_blocks_issued (s : DBState) (billingId : Nat)
    (d : BillingDocument) (hd : findDoc s.docs billingId = some d) :
    (d.status = .issued →
      deleteBilling s billingId = .error .issuedCannotDelete) ∧
    (d.status ≠ .issued →
      deleteBilling s billingId =
        .ok { s with
          lines := s.lines.filter fun ln => ¬ ln.billingId = billingId,
          docs := s.docs.filter fun x => ¬ x.id = billingId }) := by
  constructor
  · intro h
    simp [deleteBilling, hd, h]
  · intro h
    simp [deleteBilling, hd, h]

def c9IssuedDoc : BillingDocument := { c9VoidDoc with status := .issued }

def c9IssuedState : DBState := { c9VoidState with docs := [c9IssuedDoc] }

theorem delete_only_blocks_issued_witness :
    deleteBilling c9IssuedState 1 = .error .issuedCannotDelete :=
  (delete_only_blocks_issued c9IssuedState 1 c9IssuedDoc rfl).1 rfl

/-! ## C10 — bulk import. -/

theorem importOne_shape (s : DBState) (it : BillingImportItemIn) (taxRate : ℚ)
    (taxMode : TaxMode) (taxRounding : Rounding) (now docId : Nat) :
    ∃ d0,
      (importOne s it taxRate taxMode taxRounding now docId).docs =
        s.docs ++ [d0] ∧
      d0.docNo = none ∧ d0.storeId = none ∧ d0.issuedAt = some now ∧
      (importOne s it taxRate taxMode taxRounding now docId).items = s.items ∧
      (importOne s it taxRate taxMode taxRounding now docId).moves = s.moves :=
  ⟨_, rfl, rfl, rfl, rfl, rfl, rfl⟩

/-- C10: every document persisted by `import_billing` bypasses the billing
lifecycle: it gets `doc_no = None` and `store_id = None` regardless of input,
`issued_at` is the import time even for drafts, and no inventory item or
ledger row is touched even when the imported status is issued. -/
theorem import_bypasses_lifecycle (s : DBState)
    (items : List BillingImportItemIn) (taxRate : ℚ) (taxMode : TaxMode)
    (taxRounding : Rounding) (now baseId : Nat) :
    (importBilling s items taxRate taxMode taxRounding now baseId).items =
      s.items ∧
    (importBilling s items taxRate taxMode taxRounding now baseId).moves =
      s.moves ∧
    ∀ d ∈ (importBilling s items taxRate taxMode taxRounding now baseId).docs,
      d ∉ s.docs → d.docNo = none ∧ d.storeId = none ∧ d.issuedAt = some now := by
  induction items generalizing s baseId with
  | nil =>
    refine ⟨rfl, rfl, ?_⟩
    intro d hd hdn
    exact absurd hd hdn
  | cons it rest ih =>
    obtain ⟨d0, hdocs, hno, hstore, hissued, hitems, hmoves⟩ :=
      importOne_shape s it taxRate taxMode taxRounding now baseId
    have h := ih (importOne s it taxRate taxMode taxRounding now baseId)
      (baseId + 1)
    rw [importBilling]
    refine ⟨h.1.trans hitems, h.2.1.trans hmoves, ?_⟩
    intro d hd hdn
    by_cases hmem : d ∈ (importOne s it taxRate taxMode taxRounding now baseId).docs
    · rw [hdocs] at hmem
      rcases List.mem_append.mp hmem with hin | hin
      · exact absurd hin hdn
      · have hde : d = d0 := List.mem_singleton.mp hin
        subst hde
        exact ⟨hno, hstore, hissued⟩
    · exact h.2.2 d hd hmem

/-! ## C8 — re-issue from void. -/

/-- A voided invoice together with the ledger trail a real void leaves:
one `billing_issue` out row and one `billing_void` in row. -/
def c8State : DBState :=
  { docs := [{ id := 1, storeId := some 1, kind := .invoice, status := .void,
               docNo := some "INV-2026-00001", customerName := none,
               subtotal := 5000, taxTotal := 500, total := 5500,
               taxRate := 1 / 10, taxMode := .exclusive,
               taxRounding := .floor, issuedAt := some 10, createdAt := 5,
               updatedAt := 20 }],
    lines := [{ billingId := 1, workId := some 3, name := "oil change",
                qty := 1, unit := none, unitPrice := 5000, costPrice := 2000,
                amount := 5000, sortOrder := 0 }],
    items := [{ id := 1, storeId := 1, name := "oil", costPrice := 500,
                qtyOnHand := 10 }],
    materials := [{ storeId := 1, workId := 3, itemId := 1, qtyPerWork := 4 }],
    works := [],
    moves := [⟨1, 1, .outMove, 4, 500, .billingIssue, 1, 10⟩,
              ⟨1, 1, .inMove, 4, 500, .billingVoid, 1, 20⟩] }

/-- C8: the claim (and §4.3) says void is terminal — no operation, Issue in
particular, moves a void document back to issued.  `issue_billing` checks
only `status == "issued"` and the kind, so calling Issue on this voided
invoice succeeds and flips it back to `issued` (consumption is skipped by the
ledger-presence check, so the document reads issued while its stock stands
restored). -/
theorem reissue_from_void_succeeds :
    (findDoc c8State.docs 1).map BillingDocument.status = some .void ∧
    ((issueBilling c8State 1 60).map fun s1 =>
      (findDoc s1.docs 1).map BillingDocument.status) = .ok (some .issued) := by
  constructor
  · decide
  · decide

/-! ## C4 — idempotent issue. -/

/-- C4: issue on an already-issued document is a no-op success returning the
unchanged state (same fields, no new ledger rows); issue on a not-yet-issued
document of non-invoice kind is rejected; and whenever `billing_issue` rows
already exist, a successful issue appends no ledger rows at all (the
ledger-presence check of `_has_stock_consumed_for_billing`, not a boolean
flag, guards consumption), so at most one `billing_issue` batch ever
exists. -/
theorem issue_idempotent_and_guarded (s : DBState) (billingId now : Nat)
    (d : BillingDocument) (hd : findDoc s.docs billingId = some d) :
    (d.status = .issued → issueBilling s billingId now = .ok s) ∧
    (d.status ≠ .issued → d.kind ≠ .invoice →
      issueBilling s billingId now = .error .onlyInvoiceIssue) ∧
    (hasStockConsumed s billingId = true →
      ∀ s1, issueBilling s billingId now = .ok s1 → s1.moves = s.moves) := by
  refine ⟨?_, ?_, ?_⟩
  · intro h
    simp [issueBilling, hd, h]
  · intro h1 h2
    simp [issueBilling, hd, h1, h2]
  · intro hc s1 h1
    simp only [issueBilling, hd] at h1
    by_cases hst : d.status = .issued
    · simp only [hst, if_pos rfl] at h1
      cases h1
      rfl
    · simp only [hst, if_neg hst] at h1
      by_cases hk : d.kind = .invoice
      · simp only [hk, ne_eq, not_true_eq_false, if_neg, if_false] at h1
        cases hsid : d.storeId with
        | none => rw [hsid] at h1; cases h1
        | some sid =>
          rw [hsid] at h1
          simp only [consumeInventory, hc, if_pos rfl] at h1
          cases h1
          rfl
      · simp only [ne_eq, hk, not_false_eq_true, if_pos, if_true] at h1
        cases h1

/-- A draft invoice whose ledger already carries a `billing_issue` batch. -/
def c4State : DBState :=
  { docs := [{ id := 2, storeId := some 1, kind := .invoice, status := .issued,
               docNo := some "INV-2026-00002", customerName := none,
               subtotal := 5000, taxTotal := 0, total := 5000, taxRate := 0,
               taxMode := .exclusive, taxRounding := .floor,
               issuedAt := some 10, createdAt := 1, updatedAt := 10 }],
    lines := [], items := [], materials := [], works := [],
    moves := [⟨1, 1, .outMove, 4, 500, .billingIssue, 2, 10⟩] }

theorem issue_idempotent_witness :
    issueBilling c4State 2 77 = .ok c4State :=
  (issue_idempotent_and_guarded c4State 2 77
    { id := 2, storeId := some 1, kind := .invoice, status := .issued,
      docNo := some "INV-2026-00002", customerName := none, subtotal := 5000,
      taxTotal := 0, total := 5000, taxRate := 0, taxMode := .exclusive,
      taxRounding := .floor, issuedAt := some 10, createdAt := 1,
      updatedAt := 10 } rfl).1 rfl

/-! ## C2 — insufficient stock on issue. -/

/-- An entry of the consume map passes the stock check: its item exists,
belongs to the store and has enough on hand. -/
def entryPasses (s : DBState) (storeId : Nat) (p : Nat × ℚ) : Prop :=
  ∃ it, findItem s.items p.1 = some it ∧ it.storeId = storeId ∧
    p.2 ≤ it.qtyOnHand

theorem checkStock_error_of_violation (s : DBState) (storeId : Nat)
    (l : List (Nat × ℚ)) (h : ∃ p ∈ l, ¬ entryPasses s storeId p) :
    ∃ e, checkStock s storeId l = .error e := by
  induction l with
  | nil => simp at h
  | cons p rest ih =>
    obtain ⟨q, hq, hfail⟩ := h
    obtain ⟨i, qv⟩ := p
    cases hfind : findItem s.items i with
    | none => exact ⟨.invalidItem i, by simp [checkStock, hfind]⟩
    | some it =>
      by_cases hstore : it.storeId ≠ storeId
      · exact ⟨.invalidItem i, by simp [checkStock, hfind, hstore]⟩
      · by_cases hlt : it.qtyOnHand < qv
        · exact ⟨.insufficientStock it.name,
            by simp [checkStock, hfind, hstore, hlt]⟩
        · rcases List.mem_cons.mp hq with heq | hmem
          · subst heq
            exact absurd ⟨it, hfind, not_ne_iff.mp hstore, not_lt.mp hlt⟩ hfail
          · obtain ⟨e, he⟩ := ih ⟨q, hmem, hfail⟩
            exact ⟨e, by simp [checkStock, hfind, hstore, hlt, he]⟩

/-- C2: on a not-yet-consumed document, when some consume-map entry's required
quantity exceeds its item's quantity-on-hand, `issue_billing` raises (the
`.error` result models the rolled-back transaction: document status, item
quantities and ledger all keep their pre-call state, because the stock check
of `_consume_inventory_for_billing_issue` runs over every item before any
decrement or ledger append). -/
theorem issue_insufficient_stock_fails (s : DBState)
    (billingId now storeId : Nat) (d : BillingDocument)
    (hd : findDoc s.docs billingId = some d) (hstatus : d.status ≠ .issued)
    (hkind : d.kind = .invoice) (hstore : d.storeId = some storeId)
    (hfresh : hasStockConsumed s billingId = false)
    (hshort : ∃ p ∈ bomMap s.lines s.materials storeId billingId,
      ∃ it, findItem s.items p.1 = some it ∧ it.storeId = storeId ∧
        it.qtyOnHand < p.2) :
    ∃ e, issueBilling s billingId now = .error e := by
  have hviol : ∃ p ∈ bomMap s.lines s.materials storeId billingId,
      ¬ entryPasses s storeId p := by
    obtain ⟨p, hp, it, hfind, hst, hlt⟩ := hshort
    refine ⟨p, hp, ?_⟩
    rintro ⟨it2, hfind2, _hst2, hle⟩
    rw [hfind] at hfind2
    cases hfind2
    exact absurd hle (not_le.mpr hlt)
  obtain ⟨e, he⟩ := checkStock_error_of_violation s storeId _ hviol
  refine ⟨e, ?_⟩
  simp [issueBilling, hd, hstatus, hkind, hstore, consumeInventory, hfresh, he]

/-- The spec's §8 scenario: one line of one oil change, BOM 4L oil per
change, 3L on hand. -/
def c2State : DBState :=
  { docs := [{ id := 7, storeId := some 1, kind := .invoice, status := .draft,
               docNo := some "INV-2026-00003", customerName := none,
               subtotal := 5000, taxTotal := 0, total := 5000, taxRate := 0,
               taxMode := .exclusive, taxRounding := .floor, issuedAt := none,
               createdAt := 1, updatedAt := 1 }],
    lines := [{ billingId := 7, workId := some 4, name := "oil change",
                qty := 1, unit := none, unitPrice := 5000, costPrice := 0,
                amount := 5000, sortOrder := 0 }],
    items := [{ id := 1, storeId := 1, name := "oil", costPrice := 500,
                qtyOnHand := 3 }],
    materials := [{ storeId := 1, workId := 4, itemId := 1, qtyPerWork := 4 }],
    works := [], moves := [] }

theorem issue_insufficient_stock_witness :
    ∃ e, issueBilling c2State 7 20 = .error e :=
  issue_insufficient_stock_fails c2State 7 20 1
    { id := 7, storeId := some 1, kind := .invoice, status := .draft,
      docNo := some "INV-2026-00003", customerName := none, subtotal := 5000,
      taxTotal := 0, total := 5000, taxRate := 0, taxMode := .exclusive,
      taxRounding := .floor, issuedAt := none, createdAt := 1, updatedAt := 1 }
    rfl (by decide) rfl rfl rfl
    ⟨(1, 4),
      by norm_num [bomMap, bomContribs, linesOf, materialsFor, accAll, mapAdd,
        c2State, List.filterMap_cons, List.foldl_cons, List.foldl_nil],
      ⟨{ id := 1, storeId := 1, name := "oil", costPrice := 500,
         qtyOnHand := 3 }, rfl, rfl, by norm_num⟩⟩

/-! ## C6 — document number allocation. -/

theorem drop_len_append {α : Type} (l₁ l₂ : List α) :
    (l₁ ++ l₂).drop l₁.length = l₂ := by
  induction l₁ with
  | nil => simp
  | cons a as ih => simp

theorem digitChar_isDigit (d : Nat) (h : d < 10) :
    (Nat.digitChar d).isDigit = true := by
  interval_cases d <;> decide

theorem digitChar_sub48 (d : Nat) (h : d < 10) :
    (Nat.digitChar d).toNat - 48 = d := by
  interval_cases d <;> decide

theorem pad5_spec (n : Nat) (h : n ≤ 99999) :
    (pad5 n).length = 5 ∧ (pad5 n).all Char.isDigit = true ∧
      digitsVal (pad5 n) = n := by
  have h0 : n / 10000 % 10 < 10 := Nat.mod_lt _ (by norm_num)
  have h1 : n / 1000 % 10 < 10 := Nat.mod_lt _ (by norm_num)
  have h2 : n / 100 % 10 < 10 := Nat.mod_lt _ (by norm_num)
  have h3 : n / 10 % 10 < 10 := Nat.mod_lt _ (by norm_num)
  have h4 : n % 10 < 10 := Nat.mod_lt _ (by norm_num)
  refine ⟨by simp [pad5, h], ?_, ?_⟩
  · simp [pad5, h, digitChar_isDigit _ h0, digitChar_isDigit _ h1,
      digitChar_isDigit _ h2, digitChar_isDigit _ h3, digitChar_isDigit _ h4]
  · simp only [pad5, h, if_pos, digitsVal, List.foldl_cons, List.foldl_nil,
      digitChar_sub48 _ h0, digitChar_sub48 _ h1, digitChar_sub48 _ h2,
      digitChar_sub48 _ h3, digitChar_sub48 _ h4]
    omega

theorem hasPfx_append (l t : List Char) : hasPfx l (l ++ t) = true := by
  induction l with
  | nil => rfl
  | cons a as ih => simp [hasPfx, ih]

theorem extract5_append_pad5 (pre : List Char) (n : Nat) (h : n ≤ 99999) :
    extract5 ⟨pre ++ pad5 n⟩ = some n := by
  obtain ⟨hlen, hdig, hval⟩ := pad5_spec n h
  have hdata : (⟨pre ++ pad5 n⟩ : String).data = pre ++ pad5 n := rfl
  have hl : (pre ++ pad5 n).length = pre.length + 5 := by simp [hlen]
  have hd : (pre ++ pad5 n).drop ((pre ++ pad5 n).length - 5) = pad5 n := by
    rw [hl, Nat.add_sub_cancel]
    exact drop_len_append pre (pad5 n)
  have hcond : 5 ≤ (pre ++ pad5 n).length ∧
      ((pre ++ pad5 n).drop ((pre ++ pad5 n).length - 5)).all Char.isDigit =
        true := by
    constructor
    · rw [hl]
      exact Nat.le_add_left 5 pre.length
    · rw [hd]
      exact hdig
  simp only [extract5, hdata]
  rw [if_pos hcond, hd, hval]

theorem init_le_foldl_max (l : List Nat) (b : Nat) : b ≤ l.foldl max b := by
  induction l generalizing b with
  | nil => simp
  | cons x rest ih => exact le_trans (le_max_left b x) (ih (max b x))

theorem mem_le_foldl_max (l : List Nat) (a : Nat) (h : a ∈ l) :
    ∀ b, a ≤ l.foldl max b := by
  induction l with
  | nil => cases h
  | cons x rest ih =>
    intro b
    rcases List.mem_cons.mp h with heq | hmem
    · subst heq
      exact le_trans (le_max_right b a) (init_le_foldl_max rest (max b a))
    · exact ih hmem (max b x)

/-- C6 (amended): as long as the running maximum suffix is below 99999 (the
width of the `%05d` format), `_alloc_doc_no` returns
`{PREFIX}-{YEAR}-{NNNNN}` whose five-digit zero-padded suffix reads back as
max+1, and the returned number differs from the `doc_no` of every existing
document of the same kind — in particular from every existing `doc_no` of the
same (store, kind, year). -/
theorem allocDocNo_fresh (docs : List BillingDocument) (kind : Kind)
    (year : Nat) (h : maxSuffix docs kind year < 99999) :
    (allocDocNo docs kind year).data =
      likePfx kind year ++ pad5 (maxSuffix docs kind year + 1) ∧
    (pad5 (maxSuffix docs kind year + 1)).length = 5 ∧
    (pad5 (maxSuffix docs kind year + 1)).all Char.isDigit = true ∧
    digitsVal (pad5 (maxSuffix docs kind year + 1)) =
      maxSuffix docs kind year + 1 ∧
    ∀ d ∈ docs, d.kind = kind → d.docNo ≠ some (allocDocNo docs kind year) := by
  have hle : maxSuffix docs kind year + 1 ≤ 99999 := h
  obtain ⟨hlen, hdig, hval⟩ := pad5_spec (maxSuffix docs kind year + 1) hle
  refine ⟨rfl, hlen, hdig, hval, ?_⟩
  intro d hmem hkind hno
  have hf : suffixOf kind year d = some (maxSuffix docs kind year + 1) := by
    have hpfx : hasPfx (likePfx kind year) (allocDocNo docs kind year).data =
        true := hasPfx_append _ _
    simp only [suffixOf, hkind, hno, if_pos rfl, hpfx, if_true]
    exact extract5_append_pad5 (likePfx kind year)
      (maxSuffix docs kind year + 1) hle
  have hin : maxSuffix docs kind year + 1 ∈ suffixVals docs kind year :=
    List.mem_filterMap.mpr ⟨d, hmem, hf⟩
  have hcontra : maxSuffix docs kind year + 1 ≤ maxSuffix docs kind year :=
    mem_le_foldl_max _ _ hin 0
  omega

/-- Shared constant fields for C6 scenario documents. -/
def c6Doc (no : String) : BillingDocument :=
  { id := 1, storeId := some 1, kind := .invoice, status := .draft,
    docNo := some no, customerName := none, subtotal := 0, taxTotal := 0,
    total := 0, taxRate := 0, taxMode := .exclusive, taxRounding := .floor,
    issuedAt := none, createdAt := 1, updatedAt := 1 }

/-- C6 counterexample: the claim quantifies over every allocation state, but
once a suffix of 99999 exists alongside the six-digit "INV-2026-100000" that
allocating after it produces, `_alloc_doc_no` extracts the last five digits
"00000" of the six-digit number, computes max 99999 and returns
"INV-2026-100000" again — colliding with the existing doc_no of the same
(store, kind, year). -/
theorem allocDocNo_overflow_counterexample :
    allocDocNo [c6Doc "INV-2026-99999", c6Doc "INV-2026-100000"] .invoice
        2026 = "INV-2026-100000" ∧
    ∃ d ∈ [c6Doc "INV-2026-99999", c6Doc "INV-2026-100000"],
      d.kind = .invoice ∧ d.docNo = some "INV-2026-100000" := by
  constructor
  · decide
  · decide

theorem allocDocNo_fresh_witness :
    maxSuffix [c6Doc "INV-2026-00007"] .invoice 2026 < 99999 ∧
    ∀ d ∈ [c6Doc "INV-2026-00007"], d.kind = .invoice →
      d.docNo ≠ some (allocDocNo [c6Doc "INV-2026-00007"] .invoice 2026) :=
  ⟨by decide,
    (allocDocNo_fresh [c6Doc "INV-2026-00007"] .invoice 2026
      (by decide)).2.2.2.2⟩

/-! ## C3 — reconciliation delta law. -/

theorem alookup_consumedMap (moves : List StockMove) (sid bid k : Nat) :
    alookup (consumedMap moves sid bid) k =
      sumAt k (consumedContribs moves sid bid) := by
  rw [consumedMap, alookup_accAll]
  simp [alookup]

theorem consumedContribs_append (l₁ l₂ : List StockMove) (sid bid : Nat) :
    consumedContribs (l₁ ++ l₂) sid bid =
      consumedContribs l₁ sid bid ++ consumedContribs l₂ sid bid := by
  simp [consumedContribs]

theorem consumedContribs_update_out (sid bid i now : Nat) (c : Int) (q : ℚ)
    (hq : 0 < q) :
    consumedContribs [⟨sid, i, .outMove, q, c, .billingUpdate, bid, now⟩]
      sid bid = [(i, q)] := by
  simp [consumedContribs, not_le.mpr hq]

theorem consumedContribs_update_in (sid bid i now : Nat) (c : Int) (q : ℚ)
    (hq : 0 < q) :
    consumedContribs [⟨sid, i, .inMove, q, c, .billingUpdate, bid, now⟩]
      sid bid = [(i, -q)] := by
  simp [consumedContribs, not_le.mpr hq]

theorem sumAt_single (k i : Nat) (q : ℚ) :
    sumAt k [(i, q)] = if i = k then q else 0 := by
  simp [sumAt]

/-- What a successful delta application does to the ledger replay: documents,
lines and materials are untouched, and the net consumed-so-far of every item
in the id list moves by exactly `required − consumed`. -/
theorem applyReconcile_ok_spec (storeId billingId now : Nat)
    (required consumed : Nat → ℚ) (ids : List Nat) (s s1 : DBState)
    (hnd : ids.Nodup)
    (h : applyReconcile storeId billingId now required consumed ids s =
      .ok s1) :
    s1.lines = s.lines ∧ s1.materials = s.materials ∧
    ∀ k, sumAt k (consumedContribs s1.moves storeId billingId) =
      sumAt k (consumedContribs s.moves storeId billingId) +
        (if k ∈ ids then required k - consumed k else 0) := by
  induction ids generalizing s with
  | nil =>
    simp only [applyReconcile] at h
    cases h
    exact ⟨rfl, rfl, fun k => by simp⟩
  | cons i rest ih =>
    have hni : i ∉ rest := (List.nodup_cons.mp hnd).1
    have hnd2 : rest.Nodup := (List.nodup_cons.mp hnd).2
    simp only [applyReconcile] at h
    by_cases hz : required i - consumed i = 0
    · rw [if_pos hz] at h
      obtain ⟨hl, hm, hc⟩ := ih s hnd2 h
      refine ⟨hl, hm, fun k => ?_⟩
      rw [hc k]
      by_cases hk : k = i
      · subst hk
        simp [hni, hz]
      · simp [List.mem_cons, hk]
    · rw [if_neg hz] at h
      cases hfind : findItem s.items i with
      | none => simp [hfind] at h
      | some it =>
        simp only [hfind] at h
        by_cases hst : it.storeId ≠ storeId
        · rw [if_pos hst] at h
          cases h
        · rw [if_neg hst] at h
          by_cases hpos : 0 < required i - consumed i
          · rw [if_pos hpos] at h
            obtain ⟨hl, hm, hc⟩ := ih _ hnd2 h
            refine ⟨hl, hm, fun k => ?_⟩
            rw [hc k]
            simp only [consumedContribs_append, sumAt_append,
              consumedContribs_update_out storeId billingId i now it.costPrice
                (required i - consumed i) hpos, sumAt_single]
            by_cases hk : k = i
            · subst hk
              simp [hni]
            · have hik : ¬ i = k := fun hc2 => hk hc2.symm
              simp [List.mem_cons, hk, hik]
          · rw [if_neg hpos] at h
            have hneg : 0 < -(required i - consumed i) := by
              rcases lt_trichotomy (required i - consumed i) 0 with hlt | he | hgt
              · linarith
              · exact absurd he hz
              · exact absurd hgt hpos
            obtain ⟨hl, hm, hc⟩ := ih _ hnd2 h
            refine ⟨hl, hm, fun k => ?_⟩
            rw [hc k]
            simp only [consumedContribs_append, sumAt_append,
              consumedContribs_update_in storeId billingId i now it.costPrice
                (-(required i - consumed i)) hneg, sumAt_single, neg_neg]
            by_cases hk : k = i
            · subst hk
              simp [hni]
            · have hik : ¬ i = k := fun hc2 => hk hc2.symm
              simp [List.mem_cons, hk, hik]

theorem checkReconcile_ok_of_nonpos (s : DBState) (storeId : Nat)
    (required consumed : Nat → ℚ) (ids : List Nat)
    (h : ∀ i ∈ ids, required i - consumed i ≤ 0) :
    checkReconcile s storeId required consumed ids = .ok () := by
  induction ids with
  | nil => rfl
  | cons i rest ih =>
    simp only [checkReconcile]
    rw [if_pos (h i (List.mem_cons_self i rest))]
    exact ih fun j hj => h j (List.mem_cons_of_mem i hj)

theorem applyReconcile_noop_of_zero (storeId billingId now : Nat)
    (required consumed : Nat → ℚ) (ids : List Nat) (s : DBState)
    (h : ∀ i ∈ ids, required i - consumed i = 0) :
    applyReconcile storeId billingId now required consumed ids s = .ok s := by
  induction ids with
  | nil => rfl
  | cons i rest ih =>
    simp only [applyReconcile]
    rw [if_pos (h i (List.mem_cons_self i rest))]
    exact ih fun j hj => h j (List.mem_cons_of_mem i hj)

theorem not_mem_keysUnion (req con : AMap) (k : Nat)
    (h : k ∉ keysUnion req con) : k ∉ keysOf req ∧ k ∉ keysOf con := by
  rw [keysUnion] at h
  rw [List.mem_dedup, List.mem_append] at h
  push_neg at h
  exact h

/-- C3: after a successful reconciliation the replayed consumed-so-far map
agrees with the required-consumption map on every item (so a ledger row was
appended only where `required − consumed` was nonzero, and two edits with no
net change to required BOM quantities leave the net applied delta at zero);
consequently running reconciliation again on the unchanged document appends
no ledger rows and changes nothing: it returns exactly the same state. -/
theorem reconcile_idempotent (s s1 : DBState) (storeId billingId now now2 : Nat)
    (h : reconcileInventory s storeId billingId now = .ok s1) :
    (∀ k, alookup (consumedMap s1.moves storeId billingId) k =
        alookup (bomMap s1.lines s1.materials storeId billingId) k) ∧
    reconcileInventory s1 storeId billingId now2 = .ok s1 := by
  simp only [reconcileInventory] at h
  cases hchk : checkReconcile s storeId
      (alookup (bomMap s.lines s.materials storeId billingId))
      (alookup (consumedMap s.moves storeId billingId))
      (keysUnion (bomMap s.lines s.materials storeId billingId)
        (consumedMap s.moves storeId billingId)) with
  | error e => rw [hchk] at h; cases h
  | ok u =>
    cases u
    rw [hchk] at h
    obtain ⟨hl, hm, hc⟩ := applyReconcile_ok_spec storeId billingId now _ _
      (keysUnion (bomMap s.lines s.materials storeId billingId)
        (consumedMap s.moves storeId billingId))
      s s1 (by rw [keysUnion]; exact List.nodup_dedup _) h
    have key : ∀ k, alookup (consumedMap s1.moves storeId billingId) k =
        alookup (bomMap s.lines s.materials storeId billingId) k := by
      intro k
      rw [alookup_consumedMap, hc k, ← alookup_consumedMap]
      by_cases hk : k ∈ keysUnion (bomMap s.lines s.materials storeId billingId)
          (consumedMap s.moves storeId billingId)
      · rw [if_pos hk]
        ring
      · rw [if_neg hk]
        obtain ⟨hnr, hnc⟩ := not_mem_keysUnion _ _ k hk
        rw [alookup_eq_zero_of_not_mem_keys _ k hnc,
          alookup_eq_zero_of_not_mem_keys _ k hnr]
        ring
    have hbom1 : bomMap s1.lines s1.materials storeId billingId =
        bomMap s.lines s.materials storeId billingId := by
      rw [hl, hm]
    refine ⟨fun k => by rw [hbom1]; exact key k, ?_⟩
    have hz : ∀ i ∈ keysUnion (bomMap s1.lines s1.materials storeId billingId)
        (consumedMap s1.moves storeId billingId),
        alookup (bomMap s1.lines s1.materials storeId billingId) i -
          alookup (consumedMap s1.moves storeId billingId) i = 0 := by
      intro i _
      rw [hbom1, key i]
      ring
    simp only [reconcileInventory]
    rw [checkReconcile_ok_of_nonpos s1 storeId _ _ _
      (fun i hi => le_of_eq (hz i hi))]
    exact applyReconcile_noop_of_zero storeId billingId now2 _ _ _ s1 hz

/-- An issued document whose lines now require 6L of oil while the ledger
records 4L consumed at issue time: reconciliation owes a 2L delta. -/
def c3State : DBState :=
  { docs := [{ id := 5, storeId := some 1, kind := .invoice, status := .issued,
               docNo := some "INV-2026-00004", customerName := none,
               subtotal := 15000, taxTotal := 0, total := 15000, taxRate := 0,
               taxMode := .exclusive, taxRounding := .floor,
               issuedAt := some 10, createdAt := 1, updatedAt := 10 }],
    lines := [{ billingId := 5, workId := some 7, name := "oil change",
                qty := 3, unit := none, unitPrice := 5000, costPrice := 0,
                amount := 15000, sortOrder := 0 }],
    items := [{ id := 1, storeId := 1, name := "oil", costPrice := 500,
                qtyOnHand := 10 }],
    materials := [{ storeId := 1, workId := 7, itemId := 1, qtyPerWork := 2 }],
    works := [],
    moves := [⟨1, 1, .outMove, 4, 500, .billingIssue, 5, 10⟩] }

def c3After : DBState :=
  { c3State with
    items := [{ id := 1, storeId := 1, name := "oil", costPrice := 500,
                qtyOnHand := 8 }],
    moves := c3State.moves ++ [⟨1, 1, .outMove, 2, 500, .billingUpdate, 5, 90⟩] }

theorem reconcile_idempotent_witness :
    reconcileInventory c3State 1 5 90 = .ok c3After ∧
    reconcileInventory c3After 1 5 91 = .ok c3After := by
  have hfirst : reconcileInventory c3State 1 5 90 = .ok c3After := by
    norm_num [reconcileInventory, bomMap, bomContribs, consumedMap,
      consumedContribs, linesOf, materialsFor, accAll, mapAdd, keysUnion,
      keysOf, alookup, checkReconcile, applyReconcile, findItem,
      updateItemQty, c3State, c3After, List.dedup_cons_of_mem,
      List.dedup_cons_of_not_mem, List.filterMap_cons, List.foldl_cons,
      List.foldl_nil]
  exact ⟨hfirst, (reconcile_idempotent c3State c3After 1 5 90 91 hfirst).2⟩

/-! ## C1 — inventory reversal on void. -/

/-- Total quantity of the `in` rows tagged `billing_void` for one document
and item: what void restored. -/
def voidRestoredAt : List StockMove → Nat → Nat → ℚ
  | [], _, _ => 0
  | m :: rest, bid, k =>
    (if m.refType = .billingVoid ∧ m.refId = bid ∧ m.itemId = k then m.qty
     else 0) + voidRestoredAt rest bid k

/-- Total `billing_issue` quantity for one document and item: what the code's
`restore_map` aggregates. -/
def issueOutTotal (moves : List StockMove) (bid k : Nat) : ℚ :=
  sumAt k (restoreContribs moves bid)

theorem voidRestoredAt_append (l₁ l₂ : List StockMove) (bid k : Nat) :
    voidRestoredAt (l₁ ++ l₂) bid k =
      voidRestoredAt l₁ bid k + voidRestoredAt l₂ bid k := by
  induction l₁ with
  | nil => simp [voidRestoredAt]
  | cons m rest ih =>
    show (if _ then m.qty else 0) + voidRestoredAt (rest ++ l₂) bid k = _
    rw [ih]
    simp only [voidRestoredAt]
    ring

theorem voidRestoredAt_zero_of_no_void (moves : List StockMove) (bid : Nat)
    (h : ∀ m ∈ moves, ¬ (m.refType = .billingVoid ∧ m.refId = bid)) (k : Nat) :
    voidRestoredAt moves bid k = 0 := by
  induction moves with
  | nil => rfl
  | cons m rest ih =>
    have hm := h m (List.mem_cons_self m rest)
    have hcond : ¬ (m.refType = .billingVoid ∧ m.refId = bid ∧ m.itemId = k) := by
      rintro ⟨h1, h2, _⟩
      exact hm ⟨h1, h2⟩
    simp only [voidRestoredAt, if_neg hcond, zero_add]
    exact ih fun x hx => h x (List.mem_cons_of_mem m hx)

theorem no_void_rows_of_not_restored (s : DBState) (bid : Nat)
    (h : hasStockRestored s bid = false) :
    ∀ m ∈ s.moves, ¬ (m.refType = .billingVoid ∧ m.refId = bid) := by
  rw [hasStockRestored, List.any_eq_false] at h
  intro m hm
  simpa using h m hm

theorem restoreContribs_nil_of_not_consumed (s : DBState) (bid : Nat)
    (h : hasStockConsumed s bid = false) :
    restoreContribs s.moves bid = [] := by
  rw [hasStockConsumed, List.any_eq_false] at h
  rw [restoreContribs]
  have hfil : s.moves.filter
      (fun m => decide (m.refType = .billingIssue ∧ m.refId = bid)) = [] := by
    rw [List.filter_eq_nil_iff]
    intro m hm
    simpa using h m hm
  rw [hfil]
  rfl

/-- What a successful restore loop does to the void-restored totals: each key
of the (nodup-keyed) restore map with positive total gets exactly that total
appended as `billing_void` `in` rows. -/
theorem applyRestore_ok_spec (storeId billingId now : Nat)
    (l : List (Nat × ℚ)) (s s1 : DBState) (hnd : (keysOf l).Nodup)
    (h : applyRestore storeId billingId now l s = .ok s1) :
    ∀ k, voidRestoredAt s1.moves billingId k =
      voidRestoredAt s.moves billingId k +
        (if 0 < sumAt k l then sumAt k l else 0) := by
  induction l generalizing s with
  | nil =>
    simp only [applyRestore] at h
    cases h
    intro k
    simp [sumAt]
  | cons p rest ih =>
    obtain ⟨i, q⟩ := p
    have hni : i ∉ keysOf rest := by
      have := (List.nodup_cons.mp (by simpa [keysOf] using hnd)).1
      exact this
    have hnd2 : (keysOf rest).Nodup :=
      (List.nodup_cons.mp (by simpa [keysOf] using hnd)).2
    simp only [applyRestore] at h
    by_cases hq : q ≤ 0
    · rw [if_pos hq] at h
      intro k
      rw [ih s hnd2 h k]
      by_cases hk : i = k
      · subst hk
        have hz : sumAt i rest = 0 := sumAt_eq_zero_of_not_mem_keys rest i hni
        have h1 : sumAt i ((i, q) :: rest) = q := by simp [sumAt, hz]
        rw [h1, hz]
        simp [not_lt.mpr hq]
      · have h1 : sumAt k ((i, q) :: rest) = sumAt k rest := by
          simp [sumAt, hk]
        rw [h1]
    · rw [if_neg hq] at h
      have hq2 : 0 < q := lt_of_not_le hq
      cases hfind : findItem s.items i with
      | none => simp [hfind] at h
      | some it =>
        simp only [hfind] at h
        by_cases hst : it.storeId ≠ storeId
        · rw [if_pos hst] at h
          cases h
        · rw [if_neg hst] at h
          intro k
          rw [ih _ hnd2 h k]
          have hmv : ({ s with
              items := updateItemQty s.items i (fun x => x + q),
              moves := s.moves ++
                [⟨storeId, i, .inMove, q, it.costPrice, .billingVoid,
                  billingId, now⟩] } : DBState).moves =
              s.moves ++
                [⟨storeId, i, .inMove, q, it.costPrice, .billingVoid,
                  billingId, now⟩] := rfl
          rw [hmv, voidRestoredAt_append]
          by_cases hk : i = k
          · subst hk
            have hz : sumAt i rest = 0 := sumAt_eq_zero_of_not_mem_keys rest i hni
            have h1 : sumAt i ((i, q) :: rest) = q := by simp [sumAt, hz]
            have h2 : voidRestoredAt
                [⟨storeId, i, .inMove, q, it.costPrice, .billingVoid,
                  billingId, now⟩] billingId i = q := by
              simp [voidRestoredAt]
            rw [h1, hz, h2]
            simp [hq2]
          · have h1 : sumAt k ((i, q) :: rest) = sumAt k rest := by
              simp [sumAt, hk]
            have h2 : voidRestoredAt
                [⟨storeId, i, .inMove, q, it.costPrice, .billingVoid,
                  billingId, now⟩] billingId k = 0 := by
              simp [voidRestoredAt, hk]
            rw [h1, h2]
            ring_nf

/-- C1 (amended): on a document not yet restored, a successful void reversal
appends `in` rows tagged `billing_void` restoring, per item, exactly the
total of the document's `billing_issue` rows (when positive) — NOT the net of
`billing_issue` and `billing_update` rows: deltas accrued by post-issue edits
are not restored. -/
theorem restore_restores_issue_total (s s1 : DBState)
    (storeId billingId now : Nat)
    (hnr : hasStockRestored s billingId = false)
    (h : restoreInventory s storeId billingId now = .ok s1) :
    ∀ k, voidRestoredAt s1.moves billingId k =
      if 0 < issueOutTotal s.moves billingId k then
        issueOutTotal s.moves billingId k
      else 0 := by
  rw [restoreInventory] at h
  rw [hnr] at h
  simp only [Bool.false_eq_true, if_false] at h
  cases hcon : hasStockConsumed s billingId with
  | false =>
    rw [hcon] at h
    simp only [Bool.false_eq_true, not_false_eq_true, if_pos, if_true] at h
    cases h
    intro k
    have hz := voidRestoredAt_zero_of_no_void s.moves billingId
      (no_void_rows_of_not_restored s billingId hnr) k
    have hc : issueOutTotal s.moves billingId k = 0 := by
      rw [issueOutTotal, restoreContribs_nil_of_not_consumed s billingId hcon]
      rfl
    rw [hz, hc]
    simp
  | true =>
    rw [hcon] at h
    simp only [Bool.true_eq_false, not_true_eq_false, if_neg, if_false] at h
    have hnodup : (keysOf (restoreMap s.moves billingId)).Nodup := by
      rw [restoreMap]
      exact keysOf_accAll_nodup _ [] (by simp [keysOf])
    intro k
    rw [applyRestore_ok_spec storeId billingId now _ s s1 hnodup h k,
      voidRestoredAt_zero_of_no_void s.moves billingId
        (no_void_rows_of_not_restored s billingId hnr) k]
    have hsum : sumAt k (restoreMap s.moves billingId) =
        issueOutTotal s.moves billingId k := by
      rw [sumAt_eq_alookup_of_nodup _ hnodup, restoreMap, alookup_accAll,
        issueOutTotal]
      simp [alookup]
    rw [hsum]
    ring_nf

/-- An issued-then-edited document: 4L consumed at issue, 2L more by a
post-issue update, net 6L withdrawn. -/
def c1State : DBState :=
  { docs := [], lines := [],
    items := [{ id := 1, storeId := 1, name := "oil", costPrice := 500,
                qtyOnHand := 10 }],
    materials := [], works := [],
    moves := [⟨1, 1, .outMove, 4, 500, .billingIssue, 5, 10⟩,
              ⟨1, 1, .outMove, 2, 500, .billingUpdate, 5, 20⟩] }

def c1After : DBState :=
  { c1State with
    items := [{ id := 1, storeId := 1, name := "oil", costPrice := 500,
                qtyOnHand := 14 }],
    moves := c1State.moves ++ [⟨1, 1, .inMove, 4, 500, .billingVoid, 5, 30⟩] }

/-- C1 counterexample: the claim says void restores the net of billing_issue
AND billing_update rows (6L here), but `_restore_inventory_for_billing_void`
reads only the `billing_issue` rows and restores 4L: the item ends at 14L,
not 16L, and the `billing_void` rows total 4, not the net 6. -/
theorem restore_ignores_update_counterexample :
    alookup (consumedMap c1State.moves 1 5) 1 = 6 ∧
    restoreInventory c1State 1 5 30 = .ok c1After ∧
    voidRestoredAt c1After.moves 5 1 = 4 ∧
    (findItem c1After.items 1).map InventoryItem.qtyOnHand = some 14 := by
  have e1 : ¬ RefType.billingIssue = RefType.billingVoid := by decide
  have e2 : ¬ RefType.billingUpdate = RefType.billingVoid := by decide
  refine ⟨?_, ?_, ?_, ?_⟩
  · norm_num [consumedMap, consumedContribs, accAll, mapAdd, alookup,
      c1State, List.foldl_cons, List.foldl_nil]
  · norm_num [restoreInventory, hasStockRestored, hasStockConsumed,
      restoreMap, restoreContribs, accAll, mapAdd, applyRestore, findItem,
      updateItemQty, c1State, c1After, List.foldl_cons, List.foldl_nil,
      List.filter_cons, List.any_cons, e1, e2]
  · norm_num [voidRestoredAt, c1After, c1State, e1, e2]
  · norm_num [findItem, c1After]

theorem restore_issue_total_witness :
    restoreInventory c1State 1 5 30 = .ok c1After ∧
    voidRestoredAt c1After.moves 5 1 =
      if 0 < issueOutTotal c1State.moves 5 1 then issueOutTotal c1State.moves 5 1
      else 0 := by
  have e1 : ¬ RefType.billingIssue = RefType.billingVoid := by decide
  have e2 : ¬ RefType.billingUpdate = RefType.billingVoid := by decide
  have h1 : restoreInventory c1State 1 5 30 = .ok c1After := by
    norm_num [restoreInventory, hasStockRestored, hasStockConsumed,
      restoreMap, restoreContribs, accAll, mapAdd, applyRestore, findItem,
      updateItemQty, c1State, c1After, List.foldl_cons, List.foldl_nil,
      List.filter_cons, List.any_cons, e1, e2]
  exact ⟨h1, restore_restores_issue_total c1State c1After 1 5 30 (by rfl) h1 1⟩

/-! ## C5 — create with status issued. -/

/-- C5 (amended): a successful `create_billing` never touches inventory: item
quantities and the ledger are exactly as before, whatever the requested
status; when the requested status is issued, the persisted document is
appended with status issued and `issued_at` set to now (or to the supplied
value).  Consumption happens only on the Issue endpoint. -/
theorem create_issued_no_consumption (s : DBState) (actorStore : Option Nat)
    (body : BillingCreateIn) (taxRate : ℚ) (taxMode : TaxMode)
    (taxRounding : Rounding) (now year newId : Nat) (s1 : DBState)
    (h : createBilling s actorStore body taxRate taxMode taxRounding now year
      newId = .ok s1) :
    s1.items = s.items ∧ s1.moves = s.moves ∧
    (body.status = .issued →
      ∃ d, s1.docs = s.docs ++ [d] ∧ d.id = newId ∧ d.status = .issued ∧
        d.issuedAt = some (body.issuedAt.getD now)) := by
  rw [createBilling] at h
  cases hsid : resolveStoreId actorStore body.storeId with
  | none => simp [hsid] at h
  | some storeId =>
    simp only [hsid] at h
    cases hres : resolveLines s.works storeId body.lines with
    | error e => simp [hres] at h
    | ok resolved =>
      simp only [hres] at h
      cases h
      refine ⟨rfl, rfl, fun hst => ⟨_, rfl, rfl, hst, ?_⟩⟩
      show (if body.status = .issued ∧ body.issuedAt = none then some now
        else body.issuedAt) = some (body.issuedAt.getD now)
      cases hia : body.issuedAt with
      | none => simp [hst, hia]
      | some t => simp [hst, hia]

def c5State : DBState :=
  { docs := [], lines := [],
    items := [{ id := 1, storeId := 1, name := "oil", costPrice := 500,
                qtyOnHand := 10 }],
    materials := [{ storeId := 1, workId := 3, itemId := 1, qtyPerWork := 4 }],
    works := [{ id := 3, storeId := 1, name := "oil change", unit := none,
                unitPrice := 5000, costPrice := 2000 }],
    moves := [] }

def c5Body : BillingCreateIn :=
  { kind := .invoice, status := .issued, storeId := none,
    customerName := none, issuedAt := none,
    lines := [{ workId := some 3, name := "x", qty := 1, unit := none,
                unitPrice := none, costPrice := none }] }

def c5After : DBState :=
  { c5State with
    docs := [{ id := 99, storeId := some 1, kind := .invoice,
               status := .issued, docNo := some "INV-2026-00001",
               customerName := none, subtotal := 5000, taxTotal := 0,
               total := 5000, taxRate := 0, taxMode := .exclusive,
               taxRounding := .floor, issuedAt := some 50, createdAt := 50,
               updatedAt := 50 }],
    lines := [{ billingId := 99, workId := some 3, name := "oil change",
                qty := 1, unit := none, unitPrice := 5000, costPrice := 2000,
                amount := 5000, sortOrder := 0 }] }

/-- C5 counterexample: the claim says a CreateDocument call with requested
status issued triggers inventory consumption (stock decrement plus
billing_issue rows) in the same transaction; but `create_billing` persists
the document as issued with lines that the BOM maps to 4L of oil, while the
ledger stays empty and the oil quantity is untouched — no consumption
happens at create. -/
theorem create_issued_consumes_nothing_counterexample :
    createBilling c5State (some 1) c5Body 0 .exclusive .floor 50 2026 99 =
      .ok c5After ∧
    c5After.moves = [] ∧ c5After.items = c5State.items ∧
    bomMap c5After.lines c5After.materials 1 99 = [(1, 4)] := by
  have hdoc : allocDocNo ([] : List BillingDocument) .invoice 2026 =
      "INV-2026-00001" := by decide
  refine ⟨?_, rfl, rfl, ?_⟩
  · norm_num [createBilling, resolveStoreId, resolveLines,
      resolveLineFromWork, recalc, tmpLine, storedLine, lineAmount, ratTrunc,
      roundTax, hdoc, c5State, c5Body, c5After, List.enum, List.enumFrom,
      List.find?, List.foldl_cons, List.foldl_nil]
  · norm_num [bomMap, bomContribs, linesOf, materialsFor, accAll, mapAdd,
      c5After, c5State, List.filterMap_cons, List.foldl_cons, List.foldl_nil]

theorem create_issued_no_consumption_witness :
    createBilling c5State (some 1) c5Body 0 .exclusive .floor 50 2026 99 =
      .ok c5After ∧
    c5After.items = c5State.items ∧ c5After.moves = c5State.moves ∧
    ∃ d, c5After.docs = c5State.docs ++ [d] ∧ d.id = 99 ∧
      d.status = .issued ∧ d.issuedAt = some (c5Body.issuedAt.getD 50) := by
  have hdoc : allocDocNo ([] : List BillingDocument) .invoice 2026 =
      "INV-2026-00001" := by decide
  have h : createBilling c5State (some 1) c5Body 0 .exclusive .floor 50 2026
      99 = .ok c5After := by
    norm_num [createBilling, resolveStoreId, resolveLines,
      resolveLineFromWork, recalc, tmpLine, storedLine, lineAmount, ratTrunc,
      roundTax, hdoc, c5State, c5Body, c5After, List.enum, List.enumFrom,
      List.find?, List.foldl_cons, List.foldl_nil]
  have h2 := create_issued_no_consumption c5State (some 1) c5Body 0
    .exclusive .floor 50 2026 99 c5After h
  exact ⟨h, h2.1, h2.2.1, h2.2.2 rfl⟩

end VlpBilling
